import Mathlib

/-!
Shallow embedding of the invitation-gated survey application.

The embedding follows the JavaScript sources
(`src/utils/supabase.js` = part_003, `src/components/SurveyView.jsx` and
`src/components/ResultsView.jsx` = part_006, `src/App.js`) and the SQL in
`supabase_migration.sql` (row-level-security insert policy, the
`increment_invitation_usage` function and invitation creation).

Modelling conventions:
* machine timestamps are `Int` instants (an ISO timestamp compared with `<`);
* JavaScript answer values are the inductive `Ans` (finite numbers as `ℚ`,
  strings, arrays of strings from multi-select checkboxes, and JSON null);
* fallible operations return `Option`/explicit result types;
* JavaScript truthiness matters in two places that are kept faithful:
  `invitation.maxUses && ...` skips the use-limit check when `maxUses` is
  `null` or `0`, and `if (invitationId)` skips the usage increment when the
  id is `0`.
-/

namespace SurveyApp

/-- An invitation row of `survey_invitations` (supabase_migration.sql, step 2). -/
structure Invitation where
  id : Nat
  surveyId : Nat
  token : String
  inviteeName : Option String
  email : Option String
  maxUses : Option Nat
  usedCount : Nat
  expiresAt : Option Int
  isActive : Bool
  deriving Repr, DecidableEq

/-- A JavaScript answer value, as stored under one question-id key of a
response's `answers` object. -/
inductive Ans where
  | num (q : ℚ)
  | str (s : String)
  | arr (l : List String)
  | null
  deriving Repr, DecidableEq

/-- A row of `survey_responses`, with the fields the core logic reads. -/
structure SResponse where
  surveyId : Nat
  invitationId : Option Nat
  userId : Option Nat
  respondentId : String
  respondentName : String
  countryCode : String
  role : String
  answers : List (String × Ans)
  timestamp : Int
  deriving Repr, DecidableEq

/-- The persistent state owned by the backing store: the invitation table and
the response table. -/
structure Store where
  invitations : List Invitation
  responses : List SResponse
  deriving Repr, DecidableEq

/-! ### Invitation validator (`validateInvitation`, src/utils/supabase.js) -/

/-- The REST lookup issued by `validateInvitation`:
`survey_invitations?token=eq.T&survey_id=eq.S&is_active=eq.true`, of which the
code takes `data[0]`.  Note that the `is_active` condition is part of the
query filter itself. -/
def lookupActiveInvitation (invs : List Invitation) (token : String)
    (surveyId : Nat) : Option Invitation :=
  (invs.filter fun i =>
    i.token == token && i.surveyId == surveyId && i.isActive).head?

/-- `validateInvitation(token, surveyId)` from src/utils/supabase.js:
returns the invitation record, or `null` (here `none`) on every failure.
The expiration check is `invitation.expiresAt && new Date(expiresAt) < now`;
the use-limit check is `invitation.maxUses && usedCount >= maxUses`, where a
`maxUses` of `0` is falsy and therefore skips the check. -/
def validateInvitation (token : String) (surveyId : Nat) (now : Int)
    (invs : List Invitation) : Option Invitation :=
  match lookupActiveInvitation invs token surveyId with
  | none => none
  | some invitation =>
    if (match invitation.expiresAt with
        | some e => decide (e < now)
        | none => false) then
      none
    else if (match invitation.maxUses with
        | some m => decide (m ≠ 0) && decide (invitation.usedCount ≥ m)
        | none => false) then
      none
    else
      some invitation

/-- The five validation outcomes named by the specification (§4.1). -/
inductive VResult where
  | valid (inv : Invitation)
  | notFound
  | inactive
  | expired
  | exhaustedUses
  deriving Repr, DecidableEq

/-- The validator as the specification words it (§4.1): ordered checks over
the record matching token and survey, each failure reported with its own
outcome.  This definition follows the spec text and exists to be compared
with `validateInvitation`, the definition taken from the code. -/
def specValidateInvitation (token : String) (surveyId : Nat) (now : Int)
    (invs : List Invitation) : VResult :=
  match (invs.filter fun i => i.token == token && i.surveyId == surveyId).head? with
  | none => .notFound
  | some inv =>
    if !inv.isActive then .inactive
    else if (match inv.expiresAt with
        | some e => decide (e < now)
        | none => false) then .expired
    else if (match inv.maxUses with
        | some m => decide (inv.usedCount ≥ m)
        | none => false) then .exhaustedUses
    else .valid inv

/-! ### Storage-layer operations (supabase_migration.sql) -/

/-- SQL function `increment_invitation_usage` (supabase_migration.sql,
step 13): `UPDATE survey_invitations SET used_count = used_count + 1 WHERE id
= invitation_id_value`.  The update is unconditional — there is no
`used_count < max_uses` guard — and the function returns `VOID`. -/
def increment_invitation_usage (invs : List Invitation) (invitation_id_value : Nat) :
    List Invitation :=
  invs.map fun i =>
    if i.id = invitation_id_value then { i with usedCount := i.usedCount + 1 } else i

/-- The per-row condition of the row-level-security insert policy
"Invited users can insert responses" (supabase_migration.sql, step 9):
the referenced invitation must exist for the inserted row's survey, be
active, be unexpired (`expires_at IS NULL OR expires_at > NOW()`) and be
under its use limit (`max_uses IS NULL OR used_count < max_uses`). -/
def rlsInvitationOk (inv : Invitation) (now : Int) : Bool :=
  inv.isActive &&
    (match inv.expiresAt with
     | some e => decide (e > now)
     | none => true) &&
    (match inv.maxUses with
     | some m => decide (inv.usedCount < m)
     | none => true)

/-- `WITH CHECK` clause of the insert policy on `survey_responses`:
`invitation_id IS NOT NULL AND EXISTS (SELECT 1 FROM survey_invitations WHERE
id = invitation_id AND survey_id = survey_responses.survey_id AND ...)`. -/
def rlsInsertAllowed (invs : List Invitation) (surveyId : Nat)
    (invitationId : Option Nat) (now : Int) : Bool :=
  match invitationId with
  | none => false
  | some iid =>
    invs.any fun inv => inv.id == iid && inv.surveyId == surveyId && rlsInvitationOk inv now

/-- Outcome of a submission as seen by the caller of `saveResponse`.  A
row-security rejection surfaces as one generic error: PostgREST reports the
same `42501` body (`new row violates row-level security policy for table
survey_responses`) no matter which conjunct of the single policy failed, and
`saveResponse` throws `Failed to save response: <that text>`. -/
inductive SaveResult where
  | ok (r : SResponse)
  | errSave (msg : String)
  deriving Repr, DecidableEq

/-- The one message a policy rejection of the insert produces (observed
verbatim in the repository's RLS debugging notes). -/
def rlsViolationMsg : String :=
  "new row violates row-level security policy for table survey_responses"

/-- `saveResponse(surveyId, response, invitationId)` from
src/utils/supabase.js composed with the store's insert gate: the row is
built with the claimed `surveyId`, `invitationId` and the session's user id,
inserted through the row-security policy, and on success
`incrementInvitationUsage` runs inside `try { ... } catch` — its failure
(modelled by `incrementFails`) is logged and otherwise ignored.  The
increment is skipped when `invitationId` is falsy (null or 0). -/
def saveResponse (store : Store) (now : Int) (surveyId : Nat)
    (response : SResponse) (invitationId : Option Nat) (userId : Option Nat)
    (incrementFails : Bool) : SaveResult × Store :=
  let r := { response with
    surveyId := surveyId, invitationId := invitationId, userId := userId }
  if rlsInsertAllowed store.invitations surveyId invitationId now then
    let inserted : Store := { store with responses := store.responses ++ [r] }
    match invitationId with
    | some iid =>
      if iid ≠ 0 && !incrementFails then
        (.ok r, { inserted with
          invitations := increment_invitation_usage inserted.invitations iid })
      else
        (.ok r, inserted)
    | none => (.ok r, inserted)
  else
    (.errSave rlsViolationMsg, store)

/-! ### Reachable states of the invitation store

The sequential operations that touch the invitation table: creation by an
admin (`create_survey_invitation`, inserting a fresh row with the default
`used_count = 0`), the active toggle and deletion
(`toggleInvitation`/`deleteInvitation` in src/utils/supabase.js), and a
respondent submission through `saveResponse`. -/

/-- One sequential operation on the store. -/
inductive Step : Store → Store → Prop where
  | create (s : Store) (inv : Invitation)
      (hfresh : inv.id ∉ s.invitations.map Invitation.id)
      (hused : inv.usedCount = 0) :
      Step s ⟨inv :: s.invitations, s.responses⟩
  | toggle (s : Store) (iid : Nat) (b : Bool) :
      Step s ⟨s.invitations.map fun i =>
        if i.id = iid then { i with isActive := b } else i, s.responses⟩
  | remove (s : Store) (iid : Nat) :
      Step s ⟨s.invitations.filter fun i => i.id ≠ iid, s.responses⟩
  | submit (s : Store) (now : Int) (surveyId : Nat) (response : SResponse)
      (invitationId : Option Nat) (userId : Option Nat) (incrementFails : Bool) :
      Step s (saveResponse s now surveyId response invitationId userId incrementFails).2

/-- States reachable from the empty store by sequential operations. -/
inductive Reachable : Store → Prop where
  | init : Reachable ⟨[], []⟩
  | step {s t : Store} : Reachable s → Step s t → Reachable t

/-- The §3 invariant: `usedCount ≤ maxUses` whenever `maxUses` is not null. -/
def UsageInvariant (s : Store) : Prop :=
  ∀ inv ∈ s.invitations, ∀ m, inv.maxUses = some m → inv.usedCount ≤ m

/-- Primary keys of the invitation table are unique. -/
def UniqueIds (s : Store) : Prop :=
  (s.invitations.map Invitation.id).Nodup

/-! ### Access gate (src/App.js) -/

/-- The three navigation tabs. -/
inductive Tab where
  | survey
  | admin
  | results
  deriving Repr, DecidableEq

/-- The pieces of `App` component state the gate reads and writes. -/
structure AppState where
  authenticated : Bool
  userIsAdmin : Bool
  activeTab : Tab
  showAuthModal : Bool
  deriving Repr, DecidableEq

/-- `handleTabClick` (src/App.js): for the admin and results tabs an
unauthenticated click opens the auth modal, otherwise the tab becomes
active.  The admin flag is not consulted. -/
def handleTabClick (s : AppState) (tab : Tab) : AppState :=
  if (tab == Tab.admin || tab == Tab.results) && !s.authenticated then
    { s with showAuthModal := true }
  else
    { s with activeTab := tab }

/-- What the `<main>` block renders. -/
inductive MainView where
  | adminView
  | surveyView
  | resultsView
  | authRequired
  deriving Repr, DecidableEq

/-- The conditional rendering in src/App.js lines 123–142:
`activeTab === 'admin' && authenticated → <AdminView/>`, survey always,
`activeTab === 'results' && authenticated → <ResultsView/>`, and the
"Authentication Required" block for admin/results without a session.
`userIsAdmin` only selects a badge, never a view. -/
def renderMain (s : AppState) : MainView :=
  if s.activeTab == Tab.admin && s.authenticated then .adminView
  else if s.activeTab == Tab.survey then .surveyView
  else if s.activeTab == Tab.results && s.authenticated then .resultsView
  else .authRequired

/-! ### Answer aggregator (`getQuestionData`, src/components/ResultsView.jsx) -/

/-- A question row with the fields the aggregator reads. -/
structure Question where
  id : Nat
  type : String
  options : List String
  scaleMin : Int
  scaleMax : Int
  multipleSelect : Bool
  deriving Repr, DecidableEq

/-- The canonical-integer property key of an answer: `counts[answer]` turns
the answer into a string; the scale buckets are keyed by the canonical
decimal strings of the integers `scaleMin..scaleMax`, so a lookup hits a
bucket exactly when the answer's string form is the canonical form of an
in-range integer.  A finite number hits iff it is that integer; a string
hits iff it reads back as its own canonical integer (so "3" hits, "3.0" and
"03" do not); an array is joined with commas first. -/
def jsAnsIntKey : Ans → Option Int
  | .num q => if q.den = 1 then some q.num else none
  | .str s =>
    match s.toInt? with
    | some i => if toString i == s then some i else none
    | none => none
  | .arr l =>
    let s := String.intercalate "," l
    match s.toInt? with
    | some i => if toString i == s then some i else none
    | none => none
  | .null => none

/-- The string property key of an answer, used by the select buckets whose
keys are the declared option strings.  Non-integer numbers are rendered by
`toString ℚ`; only their difference from every option string matters here. -/
def jsAnsStrKey : Ans → String
  | .num q => if q.den = 1 then toString q.num else toString q
  | .str s => s
  | .arr l => String.intercalate "," l
  | .null => "null"

/-- A fresh bucket object: one zero-count bucket per key, in key order. -/
def bucketInit {α : Type} (keys : List α) : List (α × Nat) :=
  keys.map fun k => (k, 0)

/-- `if (counts[k] !== undefined) counts[k]++`: increment the bucket with
this key, leave the object unchanged when the key is absent. -/
def bucketIncr {α : Type} [DecidableEq α] (buckets : List (α × Nat)) (k : α) :
    List (α × Nat) :=
  buckets.map fun p => if p.1 = k then (p.1, p.2 + 1) else p

/-- JavaScript object keys collapse duplicates, keeping the first insertion
position. -/
def dedupFirst (l : List String) : List String :=
  l.foldl (fun acc x => if x ∈ acc then acc else acc ++ [x]) []

/-- The integers of `for (let i = scaleMin; i <= scaleMax; i++)`, in loop
order. -/
def intRange (scaleMin scaleMax : Int) : List Int :=
  (List.range (scaleMax + 1 - scaleMin).toNat).map fun (k : Nat) => scaleMin + (k : Int)

/-- The scale branch of `getQuestionData`: zero buckets for every integer
`scaleMin..scaleMax`, then one increment per answer that hits a bucket. -/
def scaleData (scaleMin scaleMax : Int) (answers : List Ans) : List (Int × Nat) :=
  answers.foldl
    (fun counts a =>
      match jsAnsIntKey a with
      | some i => bucketIncr counts i
      | none => counts)
    (bucketInit (intRange scaleMin scaleMax))

/-- Chart names longer than 20 characters are truncated with an ellipsis in
the select branch. -/
def truncateName (option : String) : String :=
  if option.length > 20 then (option.take 20) ++ "..." else option

/-- The keys an answer contributes to the select buckets: each element of an
array answer independently, otherwise the answer's own string key. -/
def selectKeysOf (a : Ans) : List String :=
  match a with
  | .arr l => l
  | _ => [jsAnsStrKey a]

/-- The select branch of `getQuestionData`: zero buckets per declared
option; an array answer increments the bucket of each element, any other
answer increments the bucket matching its key; unlisted values are ignored.
Bucket names are truncated for display. -/
def selectData (options : List String) (answers : List Ans) :
    List (String × Nat) :=
  let counts :=
    answers.foldl
      (fun counts a =>
        match a with
        | .arr l => l.foldl (fun c option => bucketIncr c option) counts
        | _ => bucketIncr counts (jsAnsStrKey a))
      (bucketInit (dedupFirst options))
  counts.map fun p => (truncateName p.1, p.2)

/-- The digit string read so far, as a natural number. -/
def digitsVal (cs : List Char) : Nat :=
  cs.foldl (fun acc c => acc * 10 + (c.toNat - '0'.toNat)) 0

/-- `parseFloat` on a string: skip leading whitespace, optional sign, then
the longest `digits[.digits]` prefix; `NaN` (here `none`) when no digit is
read.  Exponent notation and the infinities are outside the modelled
fragment. -/
def jsParseFloatStr (s : String) : Option ℚ :=
  let cs := s.data.dropWhile fun c => c == ' ' || c == '\t' || c == '\n' || c == '\r'
  let signAndRest : ℚ × List Char :=
    match cs with
    | '-' :: rest => (-1, rest)
    | '+' :: rest => (1, rest)
    | _ => (1, cs)
  let intPart := signAndRest.2.takeWhile Char.isDigit
  let afterInt := signAndRest.2.dropWhile Char.isDigit
  let fracPart :=
    match afterInt with
    | '.' :: rest => rest.takeWhile Char.isDigit
    | _ => []
  if intPart.isEmpty && fracPart.isEmpty then none
  else
    some (signAndRest.1 *
      ((digitsVal intPart : ℚ) + (digitsVal fracPart : ℚ) / (10 : ℚ) ^ fracPart.length))

/-- `parseFloat(a)` on an answer value: a finite number parses to itself, a
string through `jsParseFloatStr`, an array through the string it joins to,
and `null` (stringified to "null") parses to `NaN`. -/
def jsParseFloat : Ans → Option ℚ
  | .num q => some q
  | .str s => jsParseFloatStr s
  | .arr l => jsParseFloatStr (String.intercalate "," l)
  | .null => none

/-- `Number.prototype.toFixed(2)` followed by `parseFloat`: the value
rounded to two decimal places (ties rounded up, the case no claim
exercises). -/
def toFixed2 (q : ℚ) : ℚ :=
  ((round (q * 100) : ℤ) : ℚ) / 100

/-- A `{name, value}` chart entry of the percentage branch. -/
structure AvgEntry where
  name : String
  value : ℚ
  deriving Repr, DecidableEq

/-- The percentage branch of `getQuestionData`: keep the answers that parse
to a number, average them (`0` when none do), and report a single
`Average` entry rounded to two decimals. -/
def percentageData (answers : List Ans) : List AvgEntry :=
  let numericAnswers := answers.filterMap jsParseFloat
  let average : ℚ :=
    if numericAnswers.length > 0 then
      numericAnswers.sum / (numericAnswers.length : ℚ)
    else 0
  [⟨"Average", toFixed2 average⟩]

/-- The value `getQuestionData` returns: a bucket chart for scale, a bucket
chart for select, the average entry for percentage, and `null` for any
other type. -/
inductive QData where
  | chartInt (entries : List (Int × Nat))
  | chartStr (entries : List (String × Nat))
  | avg (entries : List AvgEntry)
  deriving Repr, DecidableEq

/-- `filteredResponses.map(r => r.answers[questionId]).filter(a => a !==
undefined && a !== null && a !== '')` — the in-scope answers for one
question. -/
def answersFor (filteredResponses : List SResponse) (questionId : String) :
    List Ans :=
  (filteredResponses.filterMap fun r => r.answers.lookup questionId).filter
    fun a => !(a == Ans.null) && !(a == Ans.str "")

/-- `getQuestionData(question)` over the in-scope responses
(src/components/ResultsView.jsx lines 591–655). -/
def getQuestionData (question : Question) (filteredResponses : List SResponse) :
    Option QData :=
  let answers := answersFor filteredResponses (toString question.id)
  if question.type == "scale" then
    some (.chartInt (scaleData question.scaleMin question.scaleMax answers))
  else if question.type == "select" then
    some (.chartStr (selectData question.options answers))
  else if question.type == "percentage" then
    some (.avg (percentageData answers))
  else
    none

/-- An answer hits a scale bucket: its integer key exists and lies in
`[scaleMin, scaleMax]`. -/
def qualifiesScale (scaleMin scaleMax : Int) (a : Ans) : Bool :=
  match jsAnsIntKey a with
  | some i => decide (scaleMin ≤ i) && decide (i ≤ scaleMax)
  | none => false

/-- A response qualifies for a scale question: it answers the question with
a value that hits a bucket. -/
def responseQualifiesScale (scaleMin scaleMax : Int) (questionId : String)
    (r : SResponse) : Bool :=
  match r.answers.lookup questionId with
  | some a => qualifiesScale scaleMin scaleMax a
  | none => false

/-- How often an option is chosen across the in-scope answers: one per
matching array element, one per equal plain answer. -/
def countSelect (option : String) (answers : List Ans) : Nat :=
  (answers.map fun a => (selectKeysOf a).count option).sum

/-! ## Lemmas about the bucket-object fold -/

theorem bucketIncr_foldl {α : Type} [DecidableEq α] [BEq α] [LawfulBEq α]
    (ks : List α) (c : List (α × Nat)) :
    ks.foldl bucketIncr c = c.map fun p => (p.1, p.2 + ks.count p.1) := by
  induction ks generalizing c with
  | nil => simp
  | cons k ks ih =>
    rw [List.foldl_cons, ih, bucketIncr, List.map_map]
    congr 1
    funext p
    by_cases h : p.1 = k
    · simp [Function.comp, h, List.count_cons_self]
      omega
    · simp [Function.comp, h, List.count_cons_of_ne h]

theorem sum_map_add {α : Type} (l : List α) (f g : α → Nat) :
    (l.map fun x => f x + g x).sum = (l.map f).sum + (l.map g).sum := by
  induction l with
  | nil => simp
  | cons x l ih => simp only [List.map_cons, List.sum_cons, ih]; omega

theorem sum_map_ite_count {α : Type} [BEq α] [LawfulBEq α]
    (keys : List α) (a : α) :
    (keys.map fun k => if k == a then 1 else 0).sum = keys.count a := by
  induction keys with
  | nil => simp
  | cons b keys ih =>
    by_cases h : a = b
    · subst h
      simp [List.count_cons_self, ih]
      omega
    · rw [List.count_cons_of_ne h]
      simp only [List.map_cons, List.sum_cons, ih]
      rw [if_neg (by simp [Ne.symm h])]
      omega

theorem count_ite_of_nodup {α : Type} [BEq α] [LawfulBEq α]
    (keys : List α) (hk : keys.Nodup) (a : α) :
    keys.count a = if a ∈ keys then 1 else 0 := by
  induction keys with
  | nil => simp
  | cons b keys ih =>
    have hnd := List.nodup_cons.mp hk
    by_cases h : a = b
    · subst h
      rw [List.count_cons_self, List.count_eq_zero.mpr hnd.1]
      simp
    · rw [List.count_cons_of_ne h, ih hnd.2]
      simp [List.mem_cons, h]

theorem count_sum_of_nodup {α : Type} [DecidableEq α] [BEq α] [LawfulBEq α]
    (keys : List α) (hk : keys.Nodup) (ks : List α) :
    (keys.map fun k => ks.count k).sum
      = (ks.filter fun x => decide (x ∈ keys)).length := by
  induction ks with
  | nil => simp
  | cons a ks ih =>
    have hcons : (keys.map fun k => (a :: ks).count k)
        = keys.map fun k => ks.count k + if k == a then 1 else 0 := by
      refine List.map_congr_left fun k _ => ?_
      by_cases h : k = a
      · subst h
        rw [List.count_cons_self]
        simp
      · rw [List.count_cons_of_ne h, if_neg (by simp [h])]
        omega
    rw [hcons, sum_map_add, ih, sum_map_ite_count, count_ite_of_nodup keys hk a,
      List.filter_cons]
    by_cases h : a ∈ keys <;> simp [h]

theorem scaleData_foldl (answers : List Ans) (c : List (Int × Nat)) :
    answers.foldl
      (fun counts a =>
        match jsAnsIntKey a with
        | some i => bucketIncr counts i
        | none => counts) c
      = (answers.filterMap jsAnsIntKey).foldl bucketIncr c := by
  induction answers generalizing c with
  | nil => rfl
  | cons a as ih =>
    cases h : jsAnsIntKey a <;>
      simp only [List.foldl_cons, List.filterMap_cons, h, ih]

theorem scaleData_eq (scaleMin scaleMax : Int) (answers : List Ans) :
    scaleData scaleMin scaleMax answers
      = (intRange scaleMin scaleMax).map fun i =>
          (i, (answers.filterMap jsAnsIntKey).count i) := by
  unfold scaleData
  rw [scaleData_foldl, bucketIncr_foldl, bucketInit, List.map_map]
  simp

theorem intRange_length (scaleMin scaleMax : Int) :
    (intRange scaleMin scaleMax).length = (scaleMax + 1 - scaleMin).toNat := by
  rw [intRange, List.length_map, List.length_range]

theorem mem_intRange {scaleMin scaleMax i : Int} :
    i ∈ intRange scaleMin scaleMax ↔ scaleMin ≤ i ∧ i ≤ scaleMax := by
  rw [intRange]
  simp only [List.mem_map, List.mem_range]
  constructor
  · rintro ⟨k, hk, rfl⟩
    omega
  · intro ⟨h1, h2⟩
    exact ⟨(i - scaleMin).toNat, by omega, by omega⟩

theorem intRange_nodup (scaleMin scaleMax : Int) :
    (intRange scaleMin scaleMax).Nodup := by
  rw [intRange]
  exact List.Nodup.map (fun a b hab => by omega) (List.nodup_range _)

theorem jsAnsIntKey_emptyStr : jsAnsIntKey (Ans.str "") = none := by decide

theorem qualifiesScale_null (scaleMin scaleMax : Int) :
    qualifiesScale scaleMin scaleMax Ans.null = false := rfl

theorem qualifiesScale_emptyStr (scaleMin scaleMax : Int) :
    qualifiesScale scaleMin scaleMax (Ans.str "") = false := by
  simp [qualifiesScale, jsAnsIntKey_emptyStr]

theorem filter_filterMap_length (answers : List Ans) (scaleMin scaleMax : Int) :
    ((answers.filterMap jsAnsIntKey).filter fun i =>
        decide (scaleMin ≤ i) && decide (i ≤ scaleMax)).length
      = (answers.filter (qualifiesScale scaleMin scaleMax)).length := by
  induction answers with
  | nil => rfl
  | cons a as ih =>
    rw [List.filterMap_cons]
    cases h : jsAnsIntKey a with
    | none =>
      have hq : qualifiesScale scaleMin scaleMax a = false := by
        simp [qualifiesScale, h]
      rw [List.filter_cons]
      simp only [hq, Bool.false_eq_true, if_false, ih]
    | some i =>
      have hq : qualifiesScale scaleMin scaleMax a
          = (decide (scaleMin ≤ i) && decide (i ≤ scaleMax)) := by
        simp [qualifiesScale, h]
      rw [List.filter_cons, List.filter_cons, hq]
      cases hc : (decide (scaleMin ≤ i) && decide (i ≤ scaleMax)) <;>
        simp only [hc, Bool.false_eq_true, if_false, if_true, List.length_cons, ih]

theorem filterMap_lookup_length (rs : List SResponse) (questionId : String)
    (scaleMin scaleMax : Int) :
    ((rs.filterMap fun r => r.answers.lookup questionId).filter
        (qualifiesScale scaleMin scaleMax)).length
      = (rs.filter (responseQualifiesScale scaleMin scaleMax questionId)).length := by
  induction rs with
  | nil => rfl
  | cons r rs ih =>
    rw [List.filterMap_cons]
    cases h : r.answers.lookup questionId with
    | none =>
      have hq : responseQualifiesScale scaleMin scaleMax questionId r = false := by
        simp [responseQualifiesScale, h]
      rw [List.filter_cons]
      simp only [hq, Bool.false_eq_true, if_false, ih]
    | some a =>
      have hq : responseQualifiesScale scaleMin scaleMax questionId r
          = qualifiesScale scaleMin scaleMax a := by
        simp [responseQualifiesScale, h]
      rw [List.filter_cons, List.filter_cons, hq]
      cases hqa : qualifiesScale scaleMin scaleMax a <;>
        simp only [hqa, Bool.false_eq_true, if_false, if_true, List.length_cons, ih]

theorem qualifiesScale_of_excluded (scaleMin scaleMax : Int) (a : Ans)
    (hpre : (!(a == Ans.null) && !(a == Ans.str "")) = false) :
    qualifiesScale scaleMin scaleMax a = false := by
  rcases a with q | s | l | _
  · simp at hpre
  · have hs : s = "" := by
      by_contra hne
      simp [hne] at hpre
    subst hs
    exact qualifiesScale_emptyStr _ _
  · simp at hpre
  · exact qualifiesScale_null _ _

theorem answersFor_qualifies_length (rs : List SResponse) (questionId : String)
    (scaleMin scaleMax : Int) :
    ((answersFor rs questionId).filter (qualifiesScale scaleMin scaleMax)).length
      = (rs.filter (responseQualifiesScale scaleMin scaleMax questionId)).length := by
  unfold answersFor
  rw [List.filter_filter]
  rw [List.filter_congr (fun a _ => ?_), filterMap_lookup_length]
  cases hpre : (!(a == Ans.null) && !(a == Ans.str ""))
  · rw [qualifiesScale_of_excluded scaleMin scaleMax a hpre]
    simp
  · simp

theorem selectData_foldl (answers : List Ans) (c : List (String × Nat)) :
    answers.foldl
      (fun counts a =>
        match a with
        | .arr l => l.foldl (fun c option => bucketIncr c option) counts
        | _ => bucketIncr counts (jsAnsStrKey a)) c
      = (answers.flatMap selectKeysOf).foldl bucketIncr c := by
  induction answers generalizing c with
  | nil => rfl
  | cons a as ih =>
    cases a <;>
      simp only [selectKeysOf, List.foldl_cons, List.flatMap_cons, List.foldl_append,
        List.singleton_append, ih]

theorem count_bind_selectKeys (answers : List Ans) (option : String) :
    (answers.flatMap selectKeysOf).count option
      = (answers.map fun a => (selectKeysOf a).count option).sum := by
  induction answers with
  | nil => rfl
  | cons a as ih =>
    rw [List.flatMap_cons, List.count_append, List.map_cons, List.sum_cons, ih]

theorem selectData_eq (options : List String) (answers : List Ans) :
    selectData options answers
      = (dedupFirst options).map fun option =>
          (truncateName option, (answers.flatMap selectKeysOf).count option) := by
  unfold selectData
  rw [selectData_foldl, bucketIncr_foldl, bucketInit, List.map_map, List.map_map]
  simp

theorem dedupFirst_aux (l acc : List String) (h : (acc ++ l).Nodup) :
    l.foldl (fun acc x => if x ∈ acc then acc else acc ++ [x]) acc = acc ++ l := by
  induction l generalizing acc with
  | nil => simp
  | cons x l ih =>
    have hx : x ∉ acc := by
      intro hmem
      rcases (List.nodup_append.mp h) with ⟨_, _, hdisj⟩
      exact hdisj hmem (List.mem_cons_self x l)
    rw [List.foldl_cons, if_neg hx]
    have h2 : ((acc ++ [x]) ++ l).Nodup := by
      rw [List.append_assoc, List.singleton_append]
      exact h
    rw [ih (acc ++ [x]) h2, List.append_assoc, List.singleton_append]

theorem dedupFirst_of_nodup (l : List String) (h : l.Nodup) : dedupFirst l = l := by
  have := dedupFirst_aux l [] (by simpa using h)
  simpa [dedupFirst] using this

/-! ## Lemmas about the reachable invitation store -/

theorem map_id_of_preserve (invs : List Invitation) (f : Invitation → Invitation)
    (hf : ∀ i, (f i).id = i.id) :
    (invs.map f).map Invitation.id = invs.map Invitation.id := by
  rw [List.map_map]
  exact List.map_congr_left fun i _ => hf i

theorem rls_allowed_spec (invs : List Invitation) (surveyId : Nat) (iid : Nat)
    (now : Int) (h : rlsInsertAllowed invs surveyId (some iid) now = true) :
    ∃ inv ∈ invs, inv.id = iid ∧ ∀ m, inv.maxUses = some m → inv.usedCount < m := by
  unfold rlsInsertAllowed at h
  obtain ⟨inv, hmem, hcond⟩ := List.any_eq_true.mp h
  simp only [Bool.and_eq_true, beq_iff_eq] at hcond
  refine ⟨inv, hmem, hcond.1.1, ?_⟩
  intro m hm
  have hok := hcond.2
  unfold rlsInvitationOk at hok
  rw [hm] at hok
  simp only [Bool.and_eq_true, decide_eq_true_eq] at hok
  exact hok.2

theorem increment_preserves (invs : List Invitation) (iid : Nat)
    (hids : (invs.map Invitation.id).Nodup)
    (hguard : ∃ inv ∈ invs, inv.id = iid ∧ ∀ m, inv.maxUses = some m → inv.usedCount < m)
    (hinv : ∀ inv ∈ invs, ∀ m, inv.maxUses = some m → inv.usedCount ≤ m) :
    ((increment_invitation_usage invs iid).map Invitation.id).Nodup ∧
      ∀ inv ∈ increment_invitation_usage invs iid, ∀ m,
        inv.maxUses = some m → inv.usedCount ≤ m := by
  constructor
  · rw [increment_invitation_usage, map_id_of_preserve]
    · exact hids
    · intro i
      by_cases h : i.id = iid <;> simp [h]
  · intro i hi m hm
    rw [increment_invitation_usage] at hi
    rcases List.mem_map.mp hi with ⟨j, hj, rfl⟩
    by_cases h : j.id = iid
    · obtain ⟨inv0, hinv0, hid0, hlt⟩ := hguard
      have hje : j = inv0 :=
        List.inj_on_of_nodup_map hids hj hinv0 (by rw [h, hid0])
      subst hje
      rw [if_pos h] at hm ⊢
      have hmu : j.maxUses = some m := hm
      show j.usedCount + 1 ≤ m
      exact hlt m hmu
    · rw [if_neg h] at hm ⊢
      exact hinv j hj m hm

theorem step_preserves (s t : Store) (hstep : Step s t)
    (hids : UniqueIds s) (hinv : UsageInvariant s) :
    UniqueIds t ∧ UsageInvariant t := by
  cases hstep with
  | create inv hfresh hused =>
    constructor
    · unfold UniqueIds at hids ⊢
      rw [List.map_cons, List.nodup_cons]
      exact ⟨hfresh, hids⟩
    · intro i hi m hm
      rcases List.mem_cons.mp hi with rfl | hi
      · rw [hused]
        exact Nat.zero_le m
      · exact hinv i hi m hm
  | toggle iid b =>
    constructor
    · unfold UniqueIds at hids ⊢
      rw [map_id_of_preserve]
      · exact hids
      · intro i
        by_cases h : i.id = iid <;> simp [h]
    · intro i hi m hm
      rcases List.mem_map.mp hi with ⟨j, hj, rfl⟩
      by_cases h : j.id = iid
      · rw [if_pos h] at hm ⊢
        have hmu : j.maxUses = some m := hm
        show j.usedCount ≤ m
        exact hinv j hj m hmu
      · rw [if_neg h] at hm ⊢
        exact hinv j hj m hm
  | remove iid =>
    constructor
    · exact hids.sublist ((List.filter_sublist _).map Invitation.id)
    · intro i hi m hm
      exact hinv i (List.mem_of_mem_filter hi) m hm
  | submit now surveyId response invitationId userId incrementFails =>
    unfold saveResponse
    cases hg : rlsInsertAllowed s.invitations surveyId invitationId now with
    | false =>
      simp only [hg, Bool.false_eq_true, if_false]
      exact ⟨hids, hinv⟩
    | true =>
      cases invitationId with
      | none => simp [rlsInsertAllowed] at hg
      | some iid =>
        simp only [hg, if_true]
        by_cases hi0 : (decide (iid ≠ 0) && !incrementFails) = true
        · simp only [hi0, if_true]
          exact increment_preserves s.invitations iid hids
            (rls_allowed_spec s.invitations surveyId iid now hg) hinv
        · simp only [hi0, Bool.false_eq_true, if_false]
          exact ⟨hids, hinv⟩

theorem reachable_wf (s : Store) (h : Reachable s) :
    UniqueIds s ∧ UsageInvariant s := by
  induction h with
  | init =>
    refine ⟨List.nodup_nil, ?_⟩
    intro inv hmem
    exact absurd hmem (List.not_mem_nil inv)
  | step hr hstep ih => exact step_preserves _ _ hstep ih.1 ih.2

/-! ## Claim theorems -/

theorem saveResponse_ok (store : Store) (now : Int) (surveyId : Nat)
    (response : SResponse) (invitationId : Option Nat) (userId : Option Nat)
    (incrementFails : Bool)
    (h : rlsInsertAllowed store.invitations surveyId invitationId now = true) :
    (saveResponse store now surveyId response invitationId userId incrementFails).1
      = SaveResult.ok { response with
          surveyId := surveyId, invitationId := invitationId, userId := userId } ∧
    (saveResponse store now surveyId response invitationId userId incrementFails).2.responses
      = store.responses ++ [{ response with
          surveyId := surveyId, invitationId := invitationId, userId := userId }] := by
  unfold saveResponse
  simp only [h, if_true]
  cases invitationId with
  | none => exact ⟨rfl, rfl⟩
  | some iid =>
    dsimp only
    by_cases h0 : (decide (iid ≠ 0) && !incrementFails) = true
    · rw [if_pos h0]
      exact ⟨rfl, rfl⟩
    · rw [if_neg h0]
      exact ⟨rfl, rfl⟩

/-- Claim C1, amended: the store's usage increment is unconditional (see the
counterexample), yet in every state reachable by the sequential store
operations, every invitation with a non-null `maxUses` satisfies
`usedCount ≤ maxUses`, because the row-security insert gate only admits the
insert-and-increment while `usedCount < maxUses`. -/
theorem c1_usage_invariant (s : Store) (h : Reachable s) :
    ∀ inv ∈ s.invitations, ∀ m, inv.maxUses = some m → inv.usedCount ≤ m :=
  (reachable_wf s h).2

theorem c1_usage_invariant_witness :
    (⟨1, 7, "tok", none, none, some 1, 1, none, true⟩ : Invitation).usedCount ≤ 1 := by
  have h1 : Reachable ⟨[⟨1, 7, "tok", none, none, some 1, 0, none, true⟩], []⟩ :=
    Reachable.step Reachable.init
      (Step.create ⟨[], []⟩ ⟨1, 7, "tok", none, none, some 1, 0, none, true⟩
        (by simp) rfl)
  have h2 : Reachable (saveResponse
      ⟨[⟨1, 7, "tok", none, none, some 1, 0, none, true⟩], []⟩ 0 7
      ⟨7, none, none, "r", "R", "SE", "IT", [], 0⟩ (some 1) none false).2 :=
    Reachable.step h1
      (Step.submit ⟨[⟨1, 7, "tok", none, none, some 1, 0, none, true⟩], []⟩ 0 7
        ⟨7, none, none, "r", "R", "SE", "IT", [], 0⟩ (some 1) none false)
  exact c1_usage_invariant _ h2
    ⟨1, 7, "tok", none, none, some 1, 1, none, true⟩ (by decide) 1 rfl

/-- Claim C1, counterexample: `increment_invitation_usage` invoked on an
invitation whose use-limit is already reached (`usedCount = maxUses = 1`)
still increments, and the resulting store violates `usedCount ≤ maxUses` —
the operation is not the conditional increment the claim describes, and it
returns no boolean. -/
theorem c1_counterexample :
    increment_invitation_usage
        [⟨1, 7, "tok", none, none, some 1, 1, none, true⟩] 1
      = [⟨1, 7, "tok", none, none, some 1, 2, none, true⟩] ∧
    ¬ UsageInvariant ⟨[⟨1, 7, "tok", none, none, some 1, 2, none, true⟩], []⟩ := by
  constructor
  · decide
  · intro h
    exact absurd
      (h ⟨1, 7, "tok", none, none, some 1, 2, none, true⟩ (by decide) 1 rfl)
      (by decide)

/-- Claim C2, amended: at submission time the invitation is re-validated
only by the database row-security insert policy, against the server clock;
when that check fails the submission is rejected and nothing is persisted,
but the rejection is the single generic row-security error — it does not
carry the §4.1 failure kind. -/
theorem c2_reject_no_write (store : Store) (now : Int) (surveyId : Nat)
    (response : SResponse) (invitationId : Option Nat) (userId : Option Nat)
    (incrementFails : Bool)
    (h : rlsInsertAllowed store.invitations surveyId invitationId now = false) :
    saveResponse store now surveyId response invitationId userId incrementFails
      = (SaveResult.errSave rlsViolationMsg, store) := by
  unfold saveResponse
  simp only [h, Bool.false_eq_true, if_false]

theorem c2_reject_no_write_witness :
    rlsInsertAllowed [⟨1, 7, "tokE", none, none, some 5, 0, some 0, true⟩] 7
        (some 1) 10 = false ∧
    saveResponse ⟨[⟨1, 7, "tokE", none, none, some 5, 0, some 0, true⟩], []⟩ 10 7
        ⟨7, none, none, "r", "R", "SE", "IT", [], 10⟩ (some 1) none false
      = (SaveResult.errSave rlsViolationMsg,
          ⟨[⟨1, 7, "tokE", none, none, some 5, 0, some 0, true⟩], []⟩) :=
  ⟨by decide, c2_reject_no_write _ _ _ _ _ _ _ (by decide)⟩

/-- Claim C2, counterexample: an expired invitation and an exhausted
invitation are distinct §4.1 failure kinds, yet the submission pipeline
rejects both with the identical generic error and an unchanged store — the
coordinator never surfaces the specific kind, and the client performs no
re-validation of its own at submit time. -/
theorem c2_counterexample :
    specValidateInvitation "tokE" 7 10
        [⟨1, 7, "tokE", none, none, some 5, 0, some 0, true⟩] = VResult.expired ∧
    specValidateInvitation "tokX" 7 10
        [⟨2, 7, "tokX", none, none, some 1, 1, none, true⟩] = VResult.exhaustedUses ∧
    (saveResponse ⟨[⟨1, 7, "tokE", none, none, some 5, 0, some 0, true⟩], []⟩ 10 7
        ⟨7, none, none, "r", "R", "SE", "IT", [], 10⟩ (some 1) none false).1
      = (saveResponse ⟨[⟨2, 7, "tokX", none, none, some 1, 1, none, true⟩], []⟩ 10 7
        ⟨7, none, none, "r", "R", "SE", "IT", [], 10⟩ (some 2) none false).1 ∧
    (saveResponse ⟨[⟨1, 7, "tokE", none, none, some 5, 0, some 0, true⟩], []⟩ 10 7
        ⟨7, none, none, "r", "R", "SE", "IT", [], 10⟩ (some 1) none false).2
      = ⟨[⟨1, 7, "tokE", none, none, some 5, 0, some 0, true⟩], []⟩ ∧
    (saveResponse ⟨[⟨2, 7, "tokX", none, none, some 1, 1, none, true⟩], []⟩ 10 7
        ⟨7, none, none, "r", "R", "SE", "IT", [], 10⟩ (some 2) none false).2
      = ⟨[⟨2, 7, "tokX", none, none, some 1, 1, none, true⟩], []⟩ := by
  refine ⟨by decide, by decide, by decide, by decide, by decide⟩

/-- Claim C5: when the response insert succeeds and the subsequent usage
increment fails, the failure is swallowed: the coordinator still returns
`ok` with the persisted response, the response is in the store, and the
result equals the one of a submission whose increment succeeded — the
increment error is never propagated. -/
theorem c5_increment_failure_swallowed (store : Store) (now : Int)
    (surveyId : Nat) (response : SResponse) (invitationId : Option Nat)
    (userId : Option Nat)
    (h : rlsInsertAllowed store.invitations surveyId invitationId now = true) :
    ∃ r : SResponse,
      (saveResponse store now surveyId response invitationId userId true).1
        = SaveResult.ok r ∧
      r ∈ (saveResponse store now surveyId response invitationId userId
        true).2.responses ∧
      (saveResponse store now surveyId response invitationId userId true).1
        = (saveResponse store now surveyId response invitationId userId false).1 := by
  obtain ⟨h1t, h2t⟩ :=
    saveResponse_ok store now surveyId response invitationId userId true h
  obtain ⟨h1f, _⟩ :=
    saveResponse_ok store now surveyId response invitationId userId false h
  refine ⟨_, h1t, ?_, ?_⟩
  · rw [h2t]
    exact List.mem_append_right _ (by simp)
  · rw [h1t, h1f]

theorem c5_increment_failure_swallowed_witness :
    (saveResponse ⟨[⟨1, 7, "tok", none, none, some 1, 0, none, true⟩], []⟩ 0 7
        ⟨7, none, none, "r", "R", "SE", "IT", [], 0⟩ (some 1) none true).1
      = SaveResult.ok ⟨7, some 1, none, "r", "R", "SE", "IT", [], 0⟩ ∧
    (⟨7, some 1, none, "r", "R", "SE", "IT", [], 0⟩ : SResponse)
      ∈ (saveResponse ⟨[⟨1, 7, "tok", none, none, some 1, 0, none, true⟩], []⟩ 0 7
        ⟨7, none, none, "r", "R", "SE", "IT", [], 0⟩ (some 1) none true).2.responses ∧
    (saveResponse ⟨[⟨1, 7, "tok", none, none, some 1, 0, none, true⟩], []⟩ 0 7
        ⟨7, none, none, "r", "R", "SE", "IT", [], 0⟩ (some 1) none true).1
      = (saveResponse ⟨[⟨1, 7, "tok", none, none, some 1, 0, none, true⟩], []⟩ 0 7
        ⟨7, none, none, "r", "R", "SE", "IT", [], 0⟩ (some 1) none false).1 := by
  obtain ⟨r, h1, h2, h3⟩ := c5_increment_failure_swallowed
    ⟨[⟨1, 7, "tok", none, none, some 1, 0, none, true⟩], []⟩ 0 7
    ⟨7, none, none, "r", "R", "SE", "IT", [], 0⟩ (some 1) none (by decide)
  exact ⟨by decide, by decide, h3⟩

theorem lookupActive_spec (invs : List Invitation) (token : String)
    (surveyId : Nat) (inv : Invitation)
    (h : lookupActiveInvitation invs token surveyId = some inv) :
    inv ∈ invs ∧ inv.token = token ∧ inv.surveyId = surveyId ∧
      inv.isActive = true := by
  unfold lookupActiveInvitation at h
  have hmem : inv ∈ invs.filter fun i =>
      i.token == token && i.surveyId == surveyId && i.isActive :=
    List.mem_of_mem_head? (by simp [h])
  have hp := List.of_mem_filter hmem
  simp only [Bool.and_eq_true, beq_iff_eq] at hp
  exact ⟨List.mem_of_mem_filter hmem, hp.1.1, hp.1.2, hp.2⟩

theorem validateInvitation_some_iff (token : String) (surveyId : Nat)
    (now : Int) (invs : List Invitation) (inv : Invitation) :
    validateInvitation token surveyId now invs = some inv ↔
      lookupActiveInvitation invs token surveyId = some inv ∧
      (∀ e, inv.expiresAt = some e → ¬ e < now) ∧
      (∀ m, inv.maxUses = some m → m = 0 ∨ inv.usedCount < m) := by
  unfold validateInvitation
  cases hl : lookupActiveInvitation invs token surveyId with
  | none => simp
  | some inv0 =>
    dsimp only
    constructor
    · intro h
      by_cases h1 : (match inv0.expiresAt with
          | some e => decide (e < now)
          | none => false) = true
      · rw [if_pos h1] at h
        cases h
      · rw [if_neg h1] at h
        by_cases h2 : (match inv0.maxUses with
            | some m => decide (m ≠ 0) && decide (inv0.usedCount ≥ m)
            | none => false) = true
        · rw [if_pos h2] at h
          cases h
        · rw [if_neg h2] at h
          obtain rfl : inv0 = inv := Option.some.inj h
          refine ⟨rfl, ?_, ?_⟩
          · intro e he hlt
            apply h1
            rw [he]
            simpa using hlt
          · intro m hm
            rw [hm] at h2
            by_cases hm0 : m = 0
            · exact Or.inl hm0
            · refine Or.inr ?_
              simp only [Bool.and_eq_true, decide_eq_true_eq, not_and] at h2
              exact Nat.lt_of_not_le (h2 hm0)
    · rintro ⟨hl2, hexp, hmax⟩
      obtain rfl : inv0 = inv := Option.some.inj hl2
      have h1 : (match inv0.expiresAt with
          | some e => decide (e < now)
          | none => false) = false := by
        cases he : inv0.expiresAt with
        | none => rfl
        | some e => simpa using hexp e he
      have h2 : (match inv0.maxUses with
          | some m => decide (m ≠ 0) && decide (inv0.usedCount ≥ m)
          | none => false) = false := by
        cases hmu : inv0.maxUses with
        | none => rfl
        | some m =>
          rcases hmax m hmu with h0 | hlt
          · simp [h0]
          · show (decide (m ≠ 0) && decide (inv0.usedCount ≥ m)) = false
            have hd : decide (inv0.usedCount ≥ m) = false :=
              decide_eq_false (Nat.not_le.mpr hlt)
            rw [hd, Bool.and_false]
      rw [h1, h2]
      rfl

/-- Claim C3, amended: for every `(token, surveyId, now)` the code validator
returns either the invitation record or `null` — never a named failure kind.
It returns the record exactly when the first row matching token, survey and
`isActive` exists (inactivity is folded into the lookup filter, so an
inactive invitation is indistinguishable from a missing one), the row is
unexpired, and the use-limit check passes, where a `maxUses` of null or `0`
disables that check. -/
theorem c3_validator_characterization (token : String) (surveyId : Nat)
    (now : Int) (invs : List Invitation) (inv : Invitation) :
    validateInvitation token surveyId now invs = some inv ↔
      lookupActiveInvitation invs token surveyId = some inv ∧
      (∀ e, inv.expiresAt = some e → ¬ e < now) ∧
      (∀ m, inv.maxUses = some m → m = 0 ∨ inv.usedCount < m) :=
  validateInvitation_some_iff token surveyId now invs inv

/-- Claim C3, counterexample: the claim requires five distinct outcomes with
`Inactive` for an inactive invitation, but the code returns the same `null`
for an inactive invitation as for a missing one; and an invitation with
`maxUses = 0` (which the claim's reading of step 4 calls exhausted, since
`usedCount ≥ 0`) is accepted as valid because `0` is falsy in the use-limit
check. -/
theorem c3_counterexample :
    validateInvitation "t" 1 0
        [⟨1, 1, "t", none, none, some 1, 0, none, false⟩] = none ∧
    validateInvitation "t" 1 0 [] = none ∧
    specValidateInvitation "t" 1 0
        [⟨1, 1, "t", none, none, some 1, 0, none, false⟩] = VResult.inactive ∧
    specValidateInvitation "t" 1 0 [] = VResult.notFound ∧
    validateInvitation "t" 1 0
        [⟨1, 1, "t", none, none, some 0, 5, none, true⟩]
      = some ⟨1, 1, "t", none, none, some 0, 5, none, true⟩ ∧
    specValidateInvitation "t" 1 0
        [⟨1, 1, "t", none, none, some 0, 5, none, true⟩]
      = VResult.exhaustedUses := by
  refine ⟨by decide, by decide, by decide, by decide, by decide, by decide⟩

/-- Claim C10: when no invitation matches both the token and the survey id,
validation returns the failure value (`null`); and any invitation the
validator returns carries exactly the requested token and survey id and is a
row of the store — the lookup is scoped by token and survey id together,
never by token alone. -/
theorem c10_lookup_scoped (token : String) (surveyId : Nat) (now : Int)
    (invs : List Invitation) :
    ((∀ inv ∈ invs, ¬(inv.token = token ∧ inv.surveyId = surveyId)) →
      validateInvitation token surveyId now invs = none) ∧
    ∀ inv, validateInvitation token surveyId now invs = some inv →
      inv ∈ invs ∧ inv.token = token ∧ inv.surveyId = surveyId := by
  constructor
  · intro hno
    unfold validateInvitation lookupActiveInvitation
    have hnil : (invs.filter fun i =>
        i.token == token && i.surveyId == surveyId && i.isActive) = [] := by
      rw [List.filter_eq_nil_iff]
      intro i hi
      simp only [Bool.and_eq_true, beq_iff_eq, not_and]
      intro htok hsid
      exact absurd ⟨htok.1, htok.2⟩ (hno i hi)
    rw [hnil]
    rfl
  · intro inv h
    have hl := (validateInvitation_some_iff token surveyId now invs inv).mp h
    have hs := lookupActive_spec invs token surveyId inv hl.1
    exact ⟨hs.1, hs.2.1, hs.2.2.1⟩

theorem c10_lookup_scoped_witness :
    validateInvitation "t" 1 0
        [⟨1, 2, "t", none, none, none, 0, none, true⟩] = none :=
  (c10_lookup_scoped "t" 1 0
    [⟨1, 2, "t", none, none, none, 0, none, true⟩]).1 (by decide)

/-- Claim C4, amended: the admin and results views are gated on session
presence only.  An unauthenticated click on either tab opens the sign-in
modal without changing the active tab, and rendering those tabs without a
session shows the locked "Authentication Required" state; but any
authenticated user — admin-flagged or not — who clicks the tab reaches the
admin or results view.  The admin-flag lookup only controls a badge. -/
theorem c4_access_gate (s : AppState) (tab : Tab)
    (h : tab = Tab.admin ∨ tab = Tab.results) :
    (s.authenticated = false →
      handleTabClick s tab = { s with showAuthModal := true } ∧
      renderMain { s with activeTab := tab } = MainView.authRequired) ∧
    (s.authenticated = true →
      renderMain (handleTabClick s tab)
        = if tab = Tab.admin then MainView.adminView else MainView.resultsView) := by
  rcases s with ⟨auth, adm, activeTab, modal⟩
  rcases h with rfl | rfl <;> cases auth <;>
    simp [handleTabClick, renderMain]

theorem c4_access_gate_witness :
    (handleTabClick ⟨false, false, Tab.survey, false⟩ Tab.admin
        = { authenticated := false, userIsAdmin := false,
            activeTab := Tab.survey, showAuthModal := true } ∧
      renderMain ⟨false, false, Tab.admin, false⟩ = MainView.authRequired) :=
  ((c4_access_gate ⟨false, false, Tab.survey, false⟩ Tab.admin (Or.inl rfl)).1) rfl

/-- Claim C4, counterexample: an authenticated user whose admin-flag lookup
is false still reaches the admin and results views — the render gate only
tests `authenticated`, so the claimed locked sign-in state does not occur
for authenticated non-admins. -/
theorem c4_counterexample :
    renderMain (handleTabClick ⟨true, false, Tab.survey, false⟩ Tab.admin)
      = MainView.adminView ∧
    renderMain (handleTabClick ⟨true, false, Tab.survey, false⟩ Tab.results)
      = MainView.resultsView := by
  refine ⟨by decide, by decide⟩

/-- Claim C6: for a scale question with `scaleMin ≤ scaleMax`, the aggregate
is a bucket list with exactly `scaleMax - scaleMin + 1` entries, one per
integer of the inclusive range (zero-count buckets included), and the counts
sum to the number of qualifying responses — those answering this question
with a value equal to one of the range integers exactly. -/
theorem c6_scale_buckets (question : Question) (rs : List SResponse)
    (h1 : question.type = "scale")
    (h2 : question.scaleMin ≤ question.scaleMax) :
    ∃ entries : List (Int × Nat),
      getQuestionData question rs = some (QData.chartInt entries) ∧
      entries.length = (question.scaleMax - question.scaleMin + 1).toNat ∧
      entries.map Prod.fst = intRange question.scaleMin question.scaleMax ∧
      (entries.map Prod.snd).sum
        = (rs.filter (responseQualifiesScale question.scaleMin
            question.scaleMax (toString question.id))).length := by
  refine ⟨scaleData question.scaleMin question.scaleMax
      (answersFor rs (toString question.id)), ?_, ?_, ?_, ?_⟩
  · unfold getQuestionData
    rw [h1]
    rfl
  · rw [scaleData_eq, List.length_map, intRange_length]
    omega
  · rw [scaleData_eq, List.map_map]
    have hfst : (Prod.fst ∘ fun i : Int =>
        (i, ((answersFor rs (toString question.id)).filterMap
          jsAnsIntKey).count i)) = id := rfl
    rw [hfst, List.map_id]
  · rw [scaleData_eq, List.map_map]
    have hmap : ((intRange question.scaleMin question.scaleMax).map
        (Prod.snd ∘ fun i =>
          (i, ((answersFor rs (toString question.id)).filterMap jsAnsIntKey).count i)))
        = (intRange question.scaleMin question.scaleMax).map fun i =>
            ((answersFor rs (toString question.id)).filterMap jsAnsIntKey).count i := rfl
    rw [hmap, count_sum_of_nodup _ (intRange_nodup _ _),
      List.filter_congr fun x _ => ?_, filter_filterMap_length,
      answersFor_qualifies_length]
    rw [decide_eq_decide.mpr mem_intRange, Bool.decide_and]

theorem c6_scale_buckets_witness :
    getQuestionData ⟨5, "scale", [], 1, 3, false⟩
        [⟨7, none, none, "r", "R", "SE", "IT", [("5", Ans.num 2)], 0⟩,
         ⟨7, none, none, "r2", "R2", "SE", "IT", [("5", Ans.num 9)], 0⟩]
      = some (QData.chartInt [(1, 0), (2, 1), (3, 0)]) ∧
    ([(1, 0), (2, 1), (3, 0)] : List (Int × Nat)).length
      = ((3 : Int) - 1 + 1).toNat ∧
    ([(1, 0), (2, 1), (3, 0)] : List (Int × Nat)).map Prod.fst = intRange 1 3 ∧
    (([(1, 0), (2, 1), (3, 0)] : List (Int × Nat)).map Prod.snd).sum
      = (([⟨7, none, none, "r", "R", "SE", "IT", [("5", Ans.num 2)], 0⟩,
           ⟨7, none, none, "r2", "R2", "SE", "IT", [("5", Ans.num 9)], 0⟩]
          : List SResponse).filter (responseQualifiesScale 1 3
            (toString (⟨5, "scale", [], 1, 3, false⟩ : Question).id))).length := by
  obtain ⟨entries, h1, h2, h3, h4⟩ :=
    c6_scale_buckets ⟨5, "scale", [], 1, 3, false⟩
      [⟨7, none, none, "r", "R", "SE", "IT", [("5", Ans.num 2)], 0⟩,
       ⟨7, none, none, "r2", "R2", "SE", "IT", [("5", Ans.num 9)], 0⟩]
      rfl (by decide)
  have h1e : getQuestionData ⟨5, "scale", [], 1, 3, false⟩
      [⟨7, none, none, "r", "R", "SE", "IT", [("5", Ans.num 2)], 0⟩,
       ⟨7, none, none, "r2", "R2", "SE", "IT", [("5", Ans.num 9)], 0⟩]
      = some (QData.chartInt [(1, 0), (2, 1), (3, 0)]) := by decide
  rw [h1e] at h1
  have he : entries = [(1, 0), (2, 1), (3, 0)] :=
    (QData.chartInt.inj (Option.some.inj h1)).symm
  subst he
  exact ⟨h1e, h2, h3, h4⟩

/-- Claim C7: the percentage aggregate is the mean, rounded to two decimal
places, of exactly the answers that parse to a number — missing and
non-numeric answers are excluded from both numerator and denominator; in
particular the answers 10, 20, "bad", null average to 15. -/
theorem c7_percentage_mean (question : Question) (rs : List SResponse)
    (h1 : question.type = "percentage")
    (h2 : (answersFor rs (toString question.id)).filterMap jsParseFloat ≠ []) :
    getQuestionData question rs
      = some (QData.avg [⟨"Average",
          toFixed2
            ((((answersFor rs (toString question.id)).filterMap jsParseFloat).sum)
              / ((((answersFor rs (toString question.id)).filterMap
                  jsParseFloat).length : Nat) : ℚ))⟩]) := by
  have hd : getQuestionData question rs
      = some (QData.avg (percentageData (answersFor rs (toString question.id)))) := by
    unfold getQuestionData
    rw [h1]
    rfl
  rw [hd]
  unfold percentageData
  dsimp only
  rw [if_pos (List.length_pos.mpr h2)]

theorem c7_percentage_mean_witness :
    getQuestionData ⟨1, "percentage", [], 0, 0, false⟩
        [⟨7, none, none, "a", "A", "SE", "IT", [("1", Ans.num 10)], 0⟩,
         ⟨7, none, none, "b", "B", "SE", "IT", [("1", Ans.num 20)], 0⟩,
         ⟨7, none, none, "c", "C", "SE", "IT", [("1", Ans.str "bad")], 0⟩,
         ⟨7, none, none, "d", "D", "SE", "IT", [("1", Ans.null)], 0⟩]
      = some (QData.avg [⟨"Average", (15 : ℚ)⟩]) := by
  rw [c7_percentage_mean ⟨1, "percentage", [], 0, 0, false⟩ _ rfl (by decide)]
  have hlist : (answersFor
      [⟨7, none, none, "a", "A", "SE", "IT", [("1", Ans.num 10)], 0⟩,
       ⟨7, none, none, "b", "B", "SE", "IT", [("1", Ans.num 20)], 0⟩,
       ⟨7, none, none, "c", "C", "SE", "IT", [("1", Ans.str "bad")], 0⟩,
       ⟨7, none, none, "d", "D", "SE", "IT", [("1", Ans.null)], 0⟩]
      (toString (⟨1, "percentage", [], 0, 0, false⟩ : Question).id)).filterMap
        jsParseFloat = [(10 : ℚ), (20 : ℚ)] := rfl
  rw [hlist]
  norm_num [toFixed2, round_eq]

/-- Claim C9: a select aggregate has one bucket per declared option in
declaration order (zero-count buckets included), counting per answer: each
element of an array answer independently, otherwise the answer itself;
values matching no declared option are ignored.  In particular the
responses [["A","B"], ["B"]] against options ["A","B","C"] count
A:1, B:2, C:0. -/
theorem c9_select_buckets (question : Question) (rs : List SResponse)
    (h1 : question.type = "select") (h2 : question.options.Nodup) :
    getQuestionData question rs = some (QData.chartStr
      (question.options.map fun option =>
        (truncateName option,
          countSelect option (answersFor rs (toString question.id))))) := by
  have hd : getQuestionData question rs
      = some (QData.chartStr (selectData question.options
          (answersFor rs (toString question.id)))) := by
    unfold getQuestionData
    rw [h1]
    rfl
  rw [hd, selectData_eq, dedupFirst_of_nodup _ h2]
  refine congrArg _ (congrArg _ (List.map_congr_left fun o _ => ?_))
  rw [count_bind_selectKeys]
  rfl

theorem c9_select_buckets_witness :
    getQuestionData ⟨2, "select", ["A", "B", "C"], 0, 0, true⟩
        [⟨7, none, none, "a", "A", "SE", "IT", [("2", Ans.arr ["A", "B"])], 0⟩,
         ⟨7, none, none, "b", "B", "SE", "IT", [("2", Ans.arr ["B"])], 0⟩]
      = some (QData.chartStr [("A", 1), ("B", 2), ("C", 0)]) := by
  rw [c9_select_buckets ⟨2, "select", ["A", "B", "C"], 0, 0, true⟩ _ rfl (by decide)]
  decide

/-- Claim C8, amended: with zero qualifying responses the aggregator still
produces a defined result — scale and select return the full zero-filled
bucket list, and percentage returns the single entry `Average` with value
`0` (a reported zero average, not `NaN`). -/
theorem c8_zero_qualifying (question : Question) (rs : List SResponse) :
    (question.type = "scale" →
      (∀ a ∈ answersFor rs (toString question.id),
        qualifiesScale question.scaleMin question.scaleMax a = false) →
      getQuestionData question rs = some (QData.chartInt
        ((intRange question.scaleMin question.scaleMax).map fun i => (i, 0)))) ∧
    (question.type = "select" →
      (∀ a ∈ answersFor rs (toString question.id),
        ∀ k ∈ selectKeysOf a, k ∉ dedupFirst question.options) →
      getQuestionData question rs = some (QData.chartStr
        ((dedupFirst question.options).map fun o => (truncateName o, 0)))) ∧
    (question.type = "percentage" →
      (answersFor rs (toString question.id)).filterMap jsParseFloat = [] →
      getQuestionData question rs = some (QData.avg [⟨"Average", 0⟩])) := by
  refine ⟨?_, ?_, ?_⟩
  · intro ht hq
    have hd : getQuestionData question rs = some (QData.chartInt
        (scaleData question.scaleMin question.scaleMax
          (answersFor rs (toString question.id)))) := by
      unfold getQuestionData
      rw [ht]
      rfl
    rw [hd, scaleData_eq]
    refine congrArg _ (congrArg _ (List.map_congr_left fun i hi => ?_))
    have hcnt : ((answersFor rs (toString question.id)).filterMap
        jsAnsIntKey).count i = 0 := by
      rw [List.count_eq_zero]
      intro hmem
      obtain ⟨a, ha, hk⟩ := List.mem_filterMap.mp hmem
      have hqa := hq a ha
      unfold qualifiesScale at hqa
      rw [hk] at hqa
      dsimp only at hqa
      have hb := mem_intRange.mp hi
      simp [hb.1, hb.2] at hqa
    rw [hcnt]
  · intro ht hq
    have hd : getQuestionData question rs = some (QData.chartStr
        (selectData question.options
          (answersFor rs (toString question.id)))) := by
      unfold getQuestionData
      rw [ht]
      rfl
    rw [hd, selectData_eq]
    refine congrArg _ (congrArg _ (List.map_congr_left fun o ho => ?_))
    have hcnt : ((answersFor rs (toString question.id)).flatMap
        selectKeysOf).count o = 0 := by
      rw [List.count_eq_zero]
      intro hmem
      obtain ⟨a, ha, hk⟩ := List.mem_flatMap.mp hmem
      exact hq a ha o hk ho
    rw [hcnt]
  · intro ht hnil
    have hd : getQuestionData question rs = some (QData.avg
        (percentageData (answersFor rs (toString question.id)))) := by
      unfold getQuestionData
      rw [ht]
      rfl
    rw [hd]
    unfold percentageData
    dsimp only
    rw [hnil]
    norm_num [toFixed2]

theorem c8_zero_qualifying_witness :
    getQuestionData ⟨1, "scale", [], 1, 2, false⟩
        [⟨7, none, none, "r", "R", "SE", "IT", [("1", Ans.num 9)], 0⟩]
      = some (QData.chartInt [(1, 0), (2, 0)]) ∧
    getQuestionData ⟨2, "select", ["A"], 0, 0, false⟩
        [⟨7, none, none, "r", "R", "SE", "IT", [("2", Ans.str "Z")], 0⟩]
      = some (QData.chartStr [("A", 0)]) ∧
    getQuestionData ⟨3, "percentage", [], 0, 0, false⟩
        [⟨7, none, none, "r", "R", "SE", "IT", [("3", Ans.str "bad")], 0⟩]
      = some (QData.avg [⟨"Average", 0⟩]) := by
  refine ⟨?_, ?_, ?_⟩
  · rw [(c8_zero_qualifying ⟨1, "scale", [], 1, 2, false⟩
      [⟨7, none, none, "r", "R", "SE", "IT", [("1", Ans.num 9)], 0⟩]).1
      rfl (by decide)]
    decide
  · rw [(c8_zero_qualifying ⟨2, "select", ["A"], 0, 0, false⟩
      [⟨7, none, none, "r", "R", "SE", "IT", [("2", Ans.str "Z")], 0⟩]).2.1
      rfl (by decide)]
    decide
  · exact (c8_zero_qualifying ⟨3, "percentage", [], 0, 0, false⟩
      [⟨7, none, none, "r", "R", "SE", "IT", [("3", Ans.str "bad")], 0⟩]).2.2
      rfl (by decide)

/-- Claim C8, counterexample: over zero qualifying answers the percentage
aggregate is not a defined-but-empty, average-less result: it is the
non-empty singleton reporting an average of `0`, indistinguishable from the
aggregate of a response whose answer actually averages `0`. -/
theorem c8_counterexample :
    percentageData [] = [⟨"Average", 0⟩] ∧
    percentageData [] = percentageData [Ans.num 0] ∧
    percentageData [] ≠ ([] : List AvgEntry) := by
  have h0 : percentageData [] = [⟨"Average", 0⟩] := by
    unfold percentageData
    norm_num [toFixed2]
  have h1 : percentageData [Ans.num 0] = [⟨"Average", 0⟩] := by
    unfold percentageData
    have hfm : List.filterMap jsParseFloat [Ans.num 0] = [(0 : ℚ)] := rfl
    rw [hfm]
    norm_num [toFixed2, List.sum_cons, List.sum_nil]
  refine ⟨h0, by rw [h0, h1], by rw [h0]; exact fun h => List.cons_ne_nil _ _ h⟩

end SurveyApp
